import Mathlib

/-!
Verification of the draft-generation and voice-conditioning pipeline of the
content-scraper repository, as implemented in `execution/generate_posts.py`.

Shallow embedding conventions:
* Python strings are Lean `String`s (character lists); the embedding covers
  the ASCII fragment — Python's `\w` on ASCII is `[a-zA-Z0-9_]`, `\s` is
  `[ \t\n\r\x0b\x0c]`, and `str.lower` is per-character ASCII lowering.
* Python floats produced by `overlap / len(draft_words)` are modelled as
  exact rationals `ℚ`; the operands are small integers, so the ratios and
  the 0.5-threshold comparison are exact.
* Python dict records are structures with `Option`-valued fields; a field
  read with `.get(k, default)` is `Option.getD`.
* Python's stable `list.sort(key=..., reverse=True)` is modelled by
  `List.insertionSort` with the relation "key of the right argument ≤ key
  of the left argument", which is the unique stable descending sort.
-/

/-- ASCII model of the whitespace class used by Python's `\s`, `\S` and
`str.strip`. -/
def isPySpace (c : Char) : Bool :=
  c == ' ' || c == '\t' || c == '\n' || c == '\r' || c == '\x0b' || c == '\x0c'

/-- ASCII model of Python's regex `\w` word-character class:
letters, digits, or underscore. -/
def isWordChar (c : Char) : Bool :=
  c.isAlphanum || c == '_'

/-- Accumulator pass extracting the maximal runs of characters satisfying `p`,
in order. `re.findall(r"\b\w+\b", s)` returns exactly the maximal `\w`-runs
of `s` (a maximal word-character run always has word boundaries at both
ends), so with `p := isWordChar` this models that call. -/
def wordRunsAux (p : Char → Bool) (acc : List Char) : List Char → List String
  | [] => if acc.isEmpty then [] else [⟨acc.reverse⟩]
  | c :: cs =>
    if p c then wordRunsAux p (c :: acc) cs
    else if acc.isEmpty then wordRunsAux p [] cs
    else (⟨acc.reverse⟩ : String) :: wordRunsAux p [] cs

/-- Lowercase the text, then list the maximal runs of characters satisfying
`p`. With `p := isWordChar` this is `re.findall(r"\b\w+\b", s.lower())`. -/
def lowerWordRuns (p : Char → Bool) (s : String) : List String :=
  wordRunsAux p [] (s.toList.map Char.toLower)

/-- Embedding of `check_similarity` (generate_posts.py lines 190-199).
`source_words` and `draft_words` are Python sets; only the size of the draft
set and the size of its intersection with the source set are used, so the
sets are modelled by `List.dedup` (distinct elements) and the intersection
size by counting distinct draft tokens that occur among the source tokens. -/
def check_similarity (source draft : String) : ℚ :=
  let source_words := lowerWordRuns isWordChar source
  let draft_words := (lowerWordRuns isWordChar draft).dedup
  if draft_words.isEmpty then 0
  else ((draft_words.filter (fun w => decide (w ∈ source_words))).length : ℚ) /
    (draft_words.length : ℚ)

/-- Modelled from the spec words of C1 ("maximal alphanumeric word runs"):
the same overlap ratio, but with tokens that are maximal runs of strictly
alphanumeric characters (underscore excluded). Used only to compare the
spec's description against the code's `\w`-based tokenizer. -/
def alnumOverlapScore (source draft : String) : ℚ :=
  let source_words := lowerWordRuns Char.isAlphanum source
  let draft_words := (lowerWordRuns Char.isAlphanum draft).dedup
  if draft_words.isEmpty then 0
  else ((draft_words.filter (fun w => decide (w ∈ source_words))).length : ℚ) /
    (draft_words.length : ℚ)

/-- The fixed similarity threshold `0.5` from `main`
(generate_posts.py line 308). -/
def similarity_threshold : ℚ := 1 / 2

/-- Embedding of the Similarity Gate decision in `main`
(generate_posts.py lines 306-310): a draft is skipped exactly when
`check_similarity(source, draft) > 0.5`. -/
def similarityRejects (source draft : String) : Bool :=
  decide (similarity_threshold < check_similarity source draft)

/-- Source text of the worked scenario in the spec. -/
def gm_source : String := "gm frens feeling good about the mint today"

/-- Draft text of the worked scenario in the spec. -/
def gm_draft : String := "gm fam feeling good today"

/-- A raw scraped post record as consumed by `filter_posts`: a Python dict
whose fields may be absent. Only `text` is inspected by the filter; the
other two fields carry the record's identity through the pipeline. -/
structure RawPost where
  text : Option String
  username : Option String
  id : Option String
deriving DecidableEq, Repr

/-- Python `str.strip()` (ASCII): remove leading and trailing whitespace. -/
def pyStrip (l : List Char) : List Char :=
  ((l.dropWhile isPySpace).reverse.dropWhile isPySpace).reverse

/-- Length of the match of the regex `https?://\S+` anchored at the head of
`l` (`0` when it does not match there). The alternation `https?` can only
match the literal `"https://"` or `"http://"` (they are mutually
exclusive), and `\S+` then greedily takes the maximal nonempty run of
non-whitespace characters; with an empty run there is no match. -/
def urlMatchLen (l : List Char) : Nat :=
  let tryPat (pat : List Char) : Nat :=
    if l.take pat.length = pat then
      let run := (l.drop pat.length).takeWhile (fun c => !isPySpace c)
      if run.length = 0 then 0 else pat.length + run.length
    else 0
  let n := tryPat "https://".toList
  if n ≠ 0 then n else tryPat "http://".toList

/-- Left-to-right scan of `re.sub(r"https?://\S+", "", text)`: at each
position, if the URL regex matches there, the match is deleted (the first
character now, the remaining `skip` characters over the next steps, during
which no new match is sought, since the scan resumes only after the match)
and otherwise the character is kept. -/
def stripUrlsGo : Nat → List Char → List Char
  | _, [] => []
  | skip + 1, _ :: cs => stripUrlsGo skip cs
  | 0, c :: cs =>
    if urlMatchLen (c :: cs) = 0 then c :: stripUrlsGo 0 cs
    else stripUrlsGo (urlMatchLen (c :: cs) - 1) cs

/-- Embedding of `re.sub(r"https?://\S+", "", text)`: delete every match of
the URL regex, scanning left to right. -/
def stripUrls (l : List Char) : List Char := stripUrlsGo 0 l

/-- Embedding of `filter_posts` (generate_posts.py lines 132-154): the loop
keeps a post unless it is shorter than 30 characters, starts with `"RT @"`,
or has fewer than 20 characters left after URL removal and stripping; kept
posts are appended in input order. -/
def filter_posts : List RawPost → List RawPost
  | [] => []
  | post :: rest =>
    if (post.text.getD "").toList.length < 30 then filter_posts rest
    else if (post.text.getD "").toList.take 4 = "RT @".toList then filter_posts rest
    else if (pyStrip (stripUrls (post.text.getD "").toList)).length < 20 then
      filter_posts rest
    else post :: filter_posts rest

/-- The claim's eligibility predicate, stated positively: text at least 30
characters long, not beginning with `"RT @"`, and at least 20 characters
remaining after URL removal and trimming. -/
def eligiblePost (post : RawPost) : Bool :=
  decide (30 ≤ (post.text.getD "").toList.length ∧
    ¬((post.text.getD "").toList.take 4 = "RT @".toList) ∧
    20 ≤ (pyStrip (stripUrls (post.text.getD "").toList)).length)

/-- A draft record as built in `main` (generate_posts.py lines 313-324) and
merged by `save_drafts`. The merge logic reads only `id` (with `.get`, so
possibly absent) and `created_at`; the remaining textual fields ride along
unchanged (the nested `source` object is irrelevant to the store logic and
is represented by the source username). -/
structure Draft where
  id : Option String
  created_at : Option String
  source_username : String
  draft : String
  status : String
  notes : String
deriving DecidableEq, Repr

/-- Embedding of the merge step of `save_drafts` (generate_posts.py lines
224-228): the set of ids is snapshotted from the existing collection once,
and each incoming draft is appended exactly when its id is not in that
snapshot. Python membership in the id set is `d.id ∈ existing.map Draft.id`. -/
def mergeDrafts (existing incoming : List Draft) : List Draft :=
  existing ++ incoming.filter (fun d => decide (d.id ∉ existing.map Draft.id))

/-- Sort key used by `save_drafts`: `x.get("created_at", "")`. -/
def draftKey (d : Draft) : String := d.created_at.getD ""

/-- The descending-by-key relation: `draftLE d e` holds when `e`'s key is at
most `d`'s key, so a `draftLE`-sorted list is newest-first. -/
def draftLE (d e : Draft) : Prop := draftKey e ≤ draftKey d

instance : DecidableRel draftLE :=
  fun d e => inferInstanceAs (Decidable (draftKey e ≤ draftKey d))

instance : IsTotal Draft draftLE :=
  ⟨fun d e => le_total (draftKey e) (draftKey d)⟩

instance : IsTrans Draft draftLE :=
  ⟨fun _ _ _ hab hbc => le_trans hbc hab⟩

/-- Embedding of `existing_drafts.sort(key=..., reverse=True)`
(generate_posts.py line 231). Python's sort is stable, and a stable
descending sort is unique, so it coincides with insertion sort under
`draftLE` (which inserts each element before the first strictly-older
entry, keeping ties in input order). -/
def sortDraftsDesc (l : List Draft) : List Draft := List.insertionSort draftLE l

/-- The retention ceiling `existing_drafts[:100]`
(generate_posts.py line 234). -/
def draftRetention : Nat := 100

/-- Embedding of the dashboard-store update of `save_drafts`
(generate_posts.py lines 224-234): merge, sort newest-first, truncate. -/
def save_drafts_dashboard (existing incoming : List Draft) : List Draft :=
  (sortDraftsDesc (mergeDrafts existing incoming)).take draftRetention

/-- Two concrete drafts sharing an id (used for the C6 counterexample). -/
def dupA : Draft := ⟨some "a", some "2025-01-01T00:00:00", "alice", "first text", "pending", ""⟩

/-- Second draft with the same id as `dupA` but different content. -/
def dupB : Draft := ⟨some "a", some "2025-01-02T00:00:00", "bob", "second text", "pending", ""⟩

/-- A draft with an id distinct from `dupA`'s (used for witnesses). -/
def freshC : Draft := ⟨some "c", some "2025-01-03T00:00:00", "carol", "third text", "pending", ""⟩

/-- On-disk states the dashboard store file can be in when `save_drafts`
loads it: missing, present but undecodable (the `json.JSONDecodeError`
branch), or decodable to a draft list. -/
inductive StoreFile where
  | absent : StoreFile
  | corrupt : StoreFile
  | parsed : List Draft → StoreFile

/-- Embedding of the load step of `save_drafts` (generate_posts.py lines
215-222): start from `[]`, and only a file that exists and decodes
replaces it. -/
def loadExistingDrafts : StoreFile → List Draft
  | StoreFile.absent => []
  | StoreFile.corrupt => []
  | StoreFile.parsed drafts => drafts

/-- The full dashboard update from an on-disk state: load, then merge,
sort and truncate. -/
def dashboardUpdate (f : StoreFile) (incoming : List Draft) : List Draft :=
  save_drafts_dashboard (loadExistingDrafts f) incoming

/-- The quote class of the post-processing regexes in `generate_draft`
(generate_posts.py lines 180-181): `["\']`. -/
def isQuoteChar (c : Char) : Bool := c == '"' || c == '\''

/-- Effect of the `^["\']` alternative of
`re.sub(r'^["\']|["\']$', '', draft)`: delete one leading quote character
when present. -/
def dropLeadingQuote : List Char → List Char
  | [] => []
  | c :: cs => if isQuoteChar c then cs else c :: cs

/-- Effect of the `["\']$` alternative of the same substitution: delete one
trailing quote character when present. -/
def dropTrailingQuote (l : List Char) : List Char :=
  match l.getLast? with
  | none => l
  | some c => if isQuoteChar c then l.dropLast else l

/-- Embedding of `re.sub(r'^["\']|["\']$', '', draft)`: the two anchored
alternatives can each match at most once and their matches can only
overlap on a one-character string, where the leading match wins and
consumes the character, so the substitution deletes a leading quote (if
any) and then a trailing quote of what remains (if any). -/
def stripEdgeQuotes (l : List Char) : List Char :=
  dropTrailingQuote (dropLeadingQuote l)

/-- Length of the match of `^(Post|Tweet|Draft):` under `re.IGNORECASE`
at the head of `l`, or `none`; the three alternatives start with distinct
letters, so the alternation is deterministic. -/
def labelLen (l : List Char) : Option Nat :=
  let low := l.map Char.toLower
  if low.take 5 = "post:".toList then some 5
  else if low.take 6 = "tweet:".toList then some 6
  else if low.take 6 = "draft:".toList then some 6
  else none

/-- Embedding of
`re.sub(r'^(Post|Tweet|Draft):\s*', '', draft, flags=re.IGNORECASE)`:
remove one leading label and the greedy run of whitespace after it. -/
def stripLabel (l : List Char) : List Char :=
  match labelLen l with
  | some n => (l.drop n).dropWhile isPySpace
  | none => l

/-- Embedding of the post-processing of raw model output in
`generate_draft` (generate_posts.py lines 180-181): the quote substitution
followed by the label substitution. -/
def cleanupDraftText (s : String) : String :=
  ⟨stripLabel (stripEdgeQuotes s.toList)⟩

/-- Modelled from the spec words of C7 ("strip a single pair of
leading/trailing quote characters if symmetric"): quotes are removed only
when a leading and a trailing quote are both present. Used only to compare
the claim's description against the code. -/
def stripQuotesSymmetricSpec (l : List Char) : List Char :=
  if 2 ≤ l.length ∧ isQuoteChar (l.headD ' ') = true ∧
      isQuoteChar (l.getLastD ' ') = true then
    (l.drop 1).dropLast
  else l

/-- The spec-worded cleanup: symmetric quote stripping, then the label. -/
def cleanupSymmetricSpec (s : String) : String :=
  ⟨stripLabel (stripQuotesSymmetricSpec s.toList)⟩

/-- Clean input in the sense of C7: no leading quote, no trailing quote,
and no leading label. -/
def cleanDraftInput (l : List Char) : Bool :=
  (match l with
    | [] => true
    | c :: _ => !isQuoteChar c) &&
  (match l.getLast? with
    | none => true
    | some c => !isQuoteChar c) &&
  (labelLen l).isNone

/-- A file-system operation, for modelling how `save_drafts` persists the
dashboard collection (generate_posts.py lines 236-237). `openTrunc p`
models `open(p, "w")`, which truncates `p`; `writeAll p c` models writing
`c` to the open file; `renameTo src dst` models an atomic replace (present
in the model only to express the discipline the spec claims — the code
never performs it). -/
inductive FsOp where
  | openTrunc : String → FsOp
  | writeAll : String → String → FsOp
  | renameTo : String → String → FsOp
deriving DecidableEq, Repr

/-- A file system: content by path, `none` when the path does not exist. -/
def FsState : Type := String → Option String

/-- Effect of one operation on the file system. -/
def applyFsOp (fs : FsState) : FsOp → FsState
  | FsOp.openTrunc p => fun q => if q = p then some "" else fs q
  | FsOp.writeAll p c => fun q => if q = p then some ((fs p).getD "" ++ c) else fs q
  | FsOp.renameTo src dst => fun q =>
      if q = dst then fs src else if q = src then none else fs q

/-- Final file system after running a trace. -/
def runFs (fs : FsState) : List FsOp → FsState
  | [] => fs
  | op :: ops => runFs (applyFsOp fs op) ops

/-- The file systems observable after each step of a trace — what a
concurrent reader could see between operations. -/
def fsTraceStates (fs : FsState) : List FsOp → List FsState
  | [] => []
  | op :: ops => applyFsOp fs op :: fsTraceStates (applyFsOp fs op) ops

/-- The dashboard store path written by `save_drafts`. -/
def dashboardPath : String := "dashboard/drafts.json"

/-- The trace `save_drafts` performs on the dashboard store file
(generate_posts.py lines 236-237): open the target itself with mode
`"w"` (truncating it), then write the serialized collection into it. -/
def dashboardSaveTrace (serialized : String) : List FsOp :=
  [FsOp.openTrunc dashboardPath, FsOp.writeAll dashboardPath serialized]

/-- The write-whole-then-replace discipline claimed by the spec: the target
is never opened or written directly, and it is installed by a rename. -/
def writesViaReplace (t : List FsOp) (target : String) : Bool :=
  t.all (fun op => match op with
    | FsOp.openTrunc p => !(p == target)
    | FsOp.writeAll p _ => !(p == target)
    | FsOp.renameTo _ _ => true) &&
  t.any (fun op => match op with
    | FsOp.renameTo _ dst => dst == target
    | _ => false)

/-- Evaluation helper: the overlap ratio expression evaluates to `a / b`
once the two list computations are settled at the `Nat` level (the `ℚ`
arithmetic itself does not reduce inside the kernel, so concrete scores
are computed this way). -/
theorem ratio_eval (sw dw : List String) (a b : Nat)
    (h1 : (dw.filter (fun w => decide (w ∈ sw))).length = a)
    (h2 : dw.length = b) (hb : b ≠ 0) :
    (if dw.isEmpty then (0 : ℚ)
      else ((dw.filter (fun w => decide (w ∈ sw))).length : ℚ) / (dw.length : ℚ))
      = (a : ℚ) / (b : ℚ) := by
  have hne : dw.isEmpty = false := by
    cases dw with
    | nil => simp at h2; exact absurd h2.symm hb
    | cons x xs => rfl
  rw [hne, if_neg (by simp), h1, h2]

/-- C1 (counterexample): on source `"a_b"` and draft `"a b"` the code's
`\w`-based tokenizer keeps `a_b` as one token, so the code's score is `0`,
while the claim's alphanumeric-run tokenizer splits it into `a` and `b`
and yields ratio `1`. -/
theorem check_similarity_word_vs_alnum_ctex :
    check_similarity "a_b" "a b" = 0 ∧
    alnumOverlapScore "a_b" "a b" = 1 ∧
    check_similarity "a_b" "a b" ≠ alnumOverlapScore "a_b" "a b" := by
  have h1 : check_similarity "a_b" "a b" = 0 := by
    unfold check_similarity
    rw [ratio_eval _ _ 0 2 (by decide) (by decide) (by norm_num)]
    norm_num
  have h2 : alnumOverlapScore "a_b" "a b" = 1 := by
    unfold alnumOverlapScore
    rw [ratio_eval _ _ 2 2 (by decide) (by decide) (by norm_num)]
    norm_num
  refine ⟨h1, h2, ?_⟩
  rw [h1, h2]
  norm_num

/-- C1 (amended): with word tokens taken as the maximal runs of word
characters (letters, digits, or underscore) of the case-folded text,
deduplicated per text, the similarity score is `|W(S) ∩ W(D)| / |W(D)|`;
it always lies in `[0,1]`, is `0` whenever the draft token set is empty,
and in particular is exactly `0` on the empty draft. -/
theorem check_similarity_bounds (source draft : String) :
    0 ≤ check_similarity source draft ∧
    check_similarity source draft ≤ 1 ∧
    ((lowerWordRuns isWordChar draft).dedup = [] →
      check_similarity source draft = 0) ∧
    check_similarity source "" = 0 := by
  refine ⟨?_, ?_, ?_, rfl⟩
  · unfold check_similarity
    dsimp only
    split
    · exact le_refl 0
    · positivity
  · unfold check_similarity
    dsimp only
    split
    · exact zero_le_one
    · apply div_le_one_of_le₀
      · exact_mod_cast List.length_filter_le _ _
      · positivity
  · intro h
    simp [check_similarity, h]

/-- C1 witness: the amended theorem applied at a concrete pair, with the
empty-token hypothesis discharged on the empty draft. -/
theorem check_similarity_bounds_w :
    check_similarity "gm frens" "" = 0 :=
  (check_similarity_bounds "gm frens" "").2.2.1 (by decide)

/-- C2: a draft is rejected by the Similarity Gate exactly when its score
strictly exceeds `0.5` (so a score of `0.5` or less is kept), and the
spec's worked scenario scores `4/5` and is rejected. -/
theorem similarity_gate_spec :
    (∀ source draft, similarityRejects source draft = true ↔
      similarity_threshold < check_similarity source draft) ∧
    (∀ source draft, check_similarity source draft ≤ similarity_threshold →
      similarityRejects source draft = false) ∧
    check_similarity gm_source gm_draft = 4 / 5 ∧
    similarityRejects gm_source gm_draft = true := by
  have hval : check_similarity gm_source gm_draft = 4 / 5 := by
    unfold check_similarity
    rw [ratio_eval _ _ 4 5 (by decide) (by decide) (by norm_num)]
    norm_num
  refine ⟨fun s d => by simp [similarityRejects], fun s d h => ?_, hval, ?_⟩
  · simp only [similarityRejects, decide_eq_false_iff_not]
    exact not_lt.mpr h
  · simp only [similarityRejects, decide_eq_true_eq, hval, similarity_threshold]
    norm_num

/-- C2 witness: the gate applied at a concrete pair whose score is at most
the threshold, hence kept (the empty draft scores `0`). -/
theorem similarity_gate_spec_w :
    similarityRejects "wagmi wagmi" "" = false :=
  similarity_gate_spec.2.1 "wagmi wagmi" ""
    (by show (0 : ℚ) ≤ similarity_threshold; rw [similarity_threshold]; norm_num)

/-- Bridge: the loop of `filter_posts` computes `List.filter eligiblePost`. -/
theorem filter_posts_eq_filter (posts : List RawPost) :
    filter_posts posts = posts.filter eligiblePost := by
  induction posts with
  | nil => rfl
  | cons p ps ih =>
    rw [List.filter_cons]
    show (if (p.text.getD "").toList.length < 30 then filter_posts ps
      else if (p.text.getD "").toList.take 4 = "RT @".toList then filter_posts ps
      else if (pyStrip (stripUrls (p.text.getD "").toList)).length < 20 then
        filter_posts ps
      else p :: filter_posts ps) = _
    by_cases h1 : (p.text.getD "").toList.length < 30
    · have he : eligiblePost p = false := by
        unfold eligiblePost
        exact decide_eq_false (fun hc => absurd hc.1 (Nat.not_le.mpr h1))
      rw [if_pos h1, he, if_neg (by simp), ih]
    · by_cases h2 : (p.text.getD "").toList.take 4 = "RT @".toList
      · have he : eligiblePost p = false := by
          unfold eligiblePost
          exact decide_eq_false (fun hc => absurd h2 hc.2.1)
        rw [if_neg h1, if_pos h2, he, if_neg (by simp), ih]
      · by_cases h3 : (pyStrip (stripUrls (p.text.getD "").toList)).length < 20
        · have he : eligiblePost p = false := by
            unfold eligiblePost
            exact decide_eq_false (fun hc => absurd hc.2.2 (Nat.not_le.mpr h3))
          rw [if_neg h1, if_neg h2, if_pos h3, he, if_neg (by simp), ih]
        · have he : eligiblePost p = true := by
            unfold eligiblePost
            exact decide_eq_true ⟨Nat.not_lt.mp h1, h2, Nat.not_lt.mp h3⟩
          rw [if_neg h1, if_neg h2, if_neg h3, he, if_pos rfl, ih]

/-- C3: the Candidate Filter returns exactly the sublist of its input whose
members satisfy the three eligibility conditions (length at least 30, not a
`"RT @"` retweet, at least 20 characters after URL removal and trimming),
preserving relative order; being a plain function of its input, it is pure. -/
theorem filter_posts_spec (posts : List RawPost) :
    filter_posts posts = posts.filter eligiblePost ∧
    (filter_posts posts).Sublist posts :=
  ⟨filter_posts_eq_filter posts,
    (filter_posts_eq_filter posts) ▸ List.filter_sublist posts⟩

/-- C10: a record whose `text` field is absent is read back as the empty
string, fails the 30-character floor, and is therefore never in the
filter's output (the filter is total — no record can make it raise). -/
theorem filter_posts_missing_text (p : RawPost) (h : p.text = none) :
    p.text.getD "" = "" ∧
    eligiblePost p = false ∧
    ∀ posts, p ∉ filter_posts posts := by
  have htext : p.text.getD "" = "" := by rw [h]; rfl
  have helig : eligiblePost p = false := by
    simp [eligiblePost, htext]
  refine ⟨htext, helig, fun posts => ?_⟩
  rw [filter_posts_eq_filter]
  simp [List.mem_filter, helig]

/-- C10 witness: the theorem applied to a concrete record with no text. -/
theorem filter_posts_missing_text_w :
    (⟨none, none, none⟩ : RawPost) ∉ filter_posts [⟨none, none, none⟩] :=
  (filter_posts_missing_text ⟨none, none, none⟩ rfl).2.2 [⟨none, none, none⟩]

/-- C4: the merge step is idempotent — after one merge every incoming id is
present in the collection (either it was already there or the draft was
appended), so replaying the same batch appends nothing. -/
theorem mergeDrafts_idempotent (existing incoming : List Draft) :
    mergeDrafts (mergeDrafts existing incoming) incoming =
      mergeDrafts existing incoming := by
  have hnil : incoming.filter
      (fun d => decide (d.id ∉ (mergeDrafts existing incoming).map Draft.id)) = [] := by
    rw [List.filter_eq_nil_iff]
    intro d hd
    simp only [decide_eq_true_eq, not_not, Decidable.not_not]
    unfold mergeDrafts
    rw [List.map_append, List.mem_append]
    by_cases hmem : d.id ∈ existing.map Draft.id
    · exact Or.inl hmem
    · exact Or.inr (List.mem_map.mpr
        ⟨d, List.mem_filter.mpr ⟨hd, by simpa using hmem⟩, rfl⟩)
  conv_lhs => rw [mergeDrafts]
  rw [hnil, List.append_nil]

/-- C5: after any merge the dashboard collection has at most 100 entries, is
sorted newest-first by `created_at`, and consists of exactly the most
recent entries of the merged collection: the merged collection splits, up
to permutation, into the retained part and the evicted part, and every
evicted entry's key is at most every retained entry's key. -/
theorem save_drafts_retention (existing incoming : List Draft) :
    (save_drafts_dashboard existing incoming).length ≤ draftRetention ∧
    List.Sorted draftLE (save_drafts_dashboard existing incoming) ∧
    (mergeDrafts existing incoming).Perm
      (save_drafts_dashboard existing incoming ++
        (sortDraftsDesc (mergeDrafts existing incoming)).drop draftRetention) ∧
    ∀ d ∈ save_drafts_dashboard existing incoming,
      ∀ e ∈ (sortDraftsDesc (mergeDrafts existing incoming)).drop draftRetention,
        draftKey e ≤ draftKey d := by
  have hsorted : List.Sorted draftLE (sortDraftsDesc (mergeDrafts existing incoming)) :=
    List.sorted_insertionSort draftLE _
  have hperm : (sortDraftsDesc (mergeDrafts existing incoming)).Perm
      (mergeDrafts existing incoming) :=
    List.perm_insertionSort draftLE _
  have hsplit := List.take_append_drop draftRetention
    (sortDraftsDesc (mergeDrafts existing incoming))
  refine ⟨List.length_take_le _ _, ?_, ?_, ?_⟩
  · exact hsorted.sublist (List.take_sublist _ _)
  · show (mergeDrafts existing incoming).Perm
      ((sortDraftsDesc (mergeDrafts existing incoming)).take draftRetention ++
        (sortDraftsDesc (mergeDrafts existing incoming)).drop draftRetention)
    rw [hsplit]
    exact hperm.symm
  · have hp : List.Pairwise draftLE
        ((sortDraftsDesc (mergeDrafts existing incoming)).take draftRetention ++
          (sortDraftsDesc (mergeDrafts existing incoming)).drop draftRetention) := by
      rw [hsplit]; exact hsorted
    exact (List.pairwise_append.mp hp).2.2

/-- C5 witness: the retention bound at a concrete store and batch. -/
theorem save_drafts_retention_w :
    (save_drafts_dashboard [] [freshC]).length ≤ draftRetention :=
  (save_drafts_retention [] [freshC]).1

/-- C6 (counterexample): with an empty prior store (trivially
duplicate-free) and a batch of two drafts sharing id `"a"`, the merge step
appends both, so the produced collection carries a duplicate id — the id
snapshot is taken once and is not updated as the batch is appended. -/
theorem merge_duplicate_ids_ctex :
    (([] : List Draft).map Draft.id).Nodup ∧
    ¬ ((mergeDrafts [] [dupA, dupB]).map Draft.id).Nodup := by
  constructor
  · simp
  · decide

/-- C6 (amended): if the prior store has pairwise-distinct ids and the
incoming batch itself has pairwise-distinct ids, then the merged
collection has pairwise-distinct ids. -/
theorem merge_preserves_id_nodup (existing incoming : List Draft)
    (h1 : (existing.map Draft.id).Nodup) (h2 : (incoming.map Draft.id).Nodup) :
    ((mergeDrafts existing incoming).map Draft.id).Nodup := by
  unfold mergeDrafts
  rw [List.map_append, List.nodup_append]
  refine ⟨h1, ?_, ?_⟩
  · exact h2.sublist ((List.filter_sublist incoming).map Draft.id)
  · intro a ha hb
    rcases List.mem_map.mp hb with ⟨d, hdmem, hda⟩
    rcases List.mem_filter.mp hdmem with ⟨_, hdkeep⟩
    rw [decide_eq_true_eq] at hdkeep
    exact hdkeep (hda ▸ ha)

/-- C6 witness: the amended theorem at a concrete duplicate-free store and
batch. -/
theorem merge_preserves_id_nodup_w :
    ((mergeDrafts [dupA] [freshC]).map Draft.id).Nodup :=
  merge_preserves_id_nodup [dupA] [freshC] (by decide) (by decide)

/-- C8: loading the store before a merge is total by construction, and both
the file-absent and the corrupt state load as the empty collection, after
which the merge proceeds exactly as it would from an empty store. -/
theorem load_store_tolerant (f : StoreFile)
    (h : f = StoreFile.absent ∨ f = StoreFile.corrupt) :
    loadExistingDrafts f = [] ∧
    ∀ incoming, dashboardUpdate f incoming = save_drafts_dashboard [] incoming := by
  rcases h with h | h <;> subst h <;> exact ⟨rfl, fun _ => rfl⟩

/-- C8 witness: the corrupt store state loads as the empty collection. -/
theorem load_store_tolerant_w :
    loadExistingDrafts StoreFile.corrupt = [] :=
  (load_store_tolerant StoreFile.corrupt (Or.inr rfl)).1

/-- Removing a trailing quote from a list that ends in one. -/
theorem dropTrailingQuote_concat (xs : List Char) (c : Char)
    (h : isQuoteChar c = true) : dropTrailingQuote (xs ++ [c]) = xs := by
  unfold dropTrailingQuote
  rw [List.getLast?_concat]
  simp [h]

/-- C7 (counterexample): on input `"gm anon` — a leading quote with no
matching trailing quote — the code's cleanup removes the quote, while the
claim's symmetric-pair rule leaves it in place. -/
theorem cleanup_symmetric_ctex :
    cleanupDraftText "\"gm anon" = "gm anon" ∧
    cleanupSymmetricSpec "\"gm anon" = "\"gm anon" ∧
    cleanupDraftText "\"gm anon" ≠ cleanupSymmetricSpec "\"gm anon" := by
  decide

/-- C7 (amended): the quote substitution strips a leading quote character
and a trailing quote character independently (each is removed whenever
present, whether or not the opposite end has one), the label substitution
then strips one leading case-insensitive `Post:`/`Tweet:`/`Draft:` label
with its following whitespace, and on input free of edge quotes and labels
the whole cleanup is the identity. -/
theorem cleanup_draft_amended :
    (∀ c l, isQuoteChar c = true →
      stripEdgeQuotes (c :: l) = dropTrailingQuote l) ∧
    (∀ l c, isQuoteChar c = true →
      stripEdgeQuotes (l ++ [c]) = dropLeadingQuote l) ∧
    (∀ l, cleanDraftInput l = true → stripLabel (stripEdgeQuotes l) = l) := by
  refine ⟨fun c l h => ?_, fun l c h => ?_, fun l hcl => ?_⟩
  · simp [stripEdgeQuotes, dropLeadingQuote, h]
  · cases l with
    | nil => simp [stripEdgeQuotes, dropLeadingQuote, dropTrailingQuote, h]
    | cons a as =>
      by_cases ha : isQuoteChar a = true
      · rw [List.cons_append]
        simp only [stripEdgeQuotes, dropLeadingQuote, ha, if_pos]
        rw [dropTrailingQuote_concat _ _ h]
      · rw [List.cons_append]
        simp only [stripEdgeQuotes, dropLeadingQuote, ha, if_neg, Bool.false_eq_true,
          ite_false]
        rw [← List.cons_append, dropTrailingQuote_concat _ _ h]
  · simp only [cleanDraftInput, Bool.and_eq_true] at hcl
    obtain ⟨⟨hhead, hlast⟩, hlab⟩ := hcl
    have h1 : dropLeadingQuote l = l := by
      cases l with
      | nil => rfl
      | cons c cs =>
        simp only [Bool.not_eq_eq_eq_not, Bool.not_true] at hhead
        simp [dropLeadingQuote, hhead]
    have h2 : dropTrailingQuote l = l := by
      unfold dropTrailingQuote
      cases hl : l.getLast? with
      | none => rfl
      | some c =>
        rw [hl] at hlast
        simp only [Bool.not_eq_eq_eq_not, Bool.not_true] at hlast
        simp [hlast]
    rw [stripEdgeQuotes, h1, h2]
    simp [stripLabel, Option.isNone_iff_eq_none.mp hlab]

/-- C7 witness: the amended cleanup is the identity on a concrete clean
input. -/
theorem cleanup_draft_amended_w :
    stripLabel (stripEdgeQuotes "gm anon".toList) = "gm anon".toList :=
  cleanup_draft_amended.2.2 "gm anon".toList (by decide)

/-- C9 (counterexample): the save trace opens and writes the store file
itself and performs no rename, so it does not follow the
write-whole-then-replace discipline; and a reader between the truncating
open and the write observes the file as empty — neither the old nor the
new collection. -/
theorem save_drafts_replace_ctex :
    writesViaReplace (dashboardSaveTrace "[new]") dashboardPath = false ∧
    ((fsTraceStates (fun p => if p = dashboardPath then some "[old]" else none)
        (dashboardSaveTrace "[new]")).map (fun g => g dashboardPath))
      = [some "", some "[new]"] ∧
    (some "" : Option String) ≠ some "[old]" ∧
    (some "" : Option String) ≠ some "[new]" := by
  refine ⟨by decide, by decide, by decide, by decide⟩

/-- C9 (amended): `save_drafts` persists the dashboard collection by
truncating the store file in place and then writing the whole serialized
collection into it. From any initial file system the final state of the
store path is exactly the new serialization, but the trace does not follow
the write-whole-then-replace discipline, and the intermediate state where
the store file is empty is observable. -/
theorem save_drafts_write_in_place (fs : FsState) (serialized : String) :
    runFs fs (dashboardSaveTrace serialized) dashboardPath = some serialized ∧
    writesViaReplace (dashboardSaveTrace serialized) dashboardPath = false ∧
    some "" ∈ (fsTraceStates fs (dashboardSaveTrace serialized)).map
      (fun g => g dashboardPath) := by
  refine ⟨?_, ?_, ?_⟩
  · show some ((some "").getD "" ++ serialized) = some serialized
    rfl
  · rfl
  · simp [fsTraceStates, dashboardSaveTrace, applyFsOp]
